import Mathlib

/-!
Verification of `lisa/sut_orchestrator/azure/tools.py`.

Strings from the Python sources are modelled as `List Char` (`Str`), so
that every Python string operation (`split`, `strip`, slicing, regex
matching) can be given a direct executable translation and reasoned
about by induction.  Remote-host interactions (`node.execute`,
`self.run`, `command_exists`, file reads) are modelled as explicit
oracle functions passed to the translated methods, and each translated
method additionally returns the list of remote commands it issued, so
that "no further remote execution happens" is a provable statement.
-/

/-- Python strings are modelled as lists of characters. -/
abbrev Str := List Char

/-- A Python dictionary with string keys and values, modelled as an
insertion-ordered association list whose keys are pairwise distinct. -/
abbrev Dict := List (Str × Str)

/-- Convert a Lean string literal to the `Str` model. -/
def strOf (s : String) : Str := s.toList

/-- The NUL character, the delimiter of FreeBSD KVP pool files. -/
def nulCh : Char := '\x00'

/-- The newline character. -/
def nlCh : Char := '\n'

/-- The carriage-return character. -/
def crCh : Char := '\r'

/-- The double-quote character. -/
def dqCh : Char := '\x22'

/-- The single-quote character. -/
def sqCh : Char := '\x27'

/-- Model of Python `s.split(c)` for a single-character separator `c`:
splits at every occurrence, keeping empty fields, so that
`"a".split(c) = ["a"]`, `"".split(c) = [""]` and a trailing separator
yields a trailing empty field. -/
def splitCh (c : Char) : Str → List Str
  | [] => [[]]
  | x :: xs =>
    match splitCh c xs with
    | [] => [[]]
    | s :: rest => if x = c then [] :: s :: rest else (x :: s) :: rest

/-- Join a list of lines with newline characters (no trailing newline),
the shape of the stdout texts parsed by the tools. -/
def joinLines : List Str → Str
  | [] => []
  | [l] => l
  | l :: rest => l ++ nlCh :: joinLines rest

/-- Split a string at the LAST occurrence of `sep`, returning the parts
before and after it, or `none` when `sep` does not occur.  This models a
greedy `(.*)` regex group followed by the literal `sep`: backtracking
makes the group swallow everything up to the last occurrence. -/
def splitLast (sep : Str) : Str → Option (Str × Str)
  | [] => none
  | c :: rest =>
    match splitLast sep rest with
    | some (a, b) => some (c :: a, b)
    | none =>
      if sep.isPrefixOf (c :: rest) then some ([], (c :: rest).drop sep.length)
      else none

/-- The decimal character of a digit value below ten. -/
def digitCh : Nat → Char
  | 0 => '0' | 1 => '1' | 2 => '2' | 3 => '3' | 4 => '4'
  | 5 => '5' | 6 => '6' | 7 => '7' | 8 => '8' | _ => '9'

/-- Decimal rendering of a natural number, as produced by Python's
string formatting of the record count. -/
def natToDigits (n : Nat) : Str :=
  if _h : n < 10 then [digitCh n] else natToDigits (n / 10) ++ [digitCh (n % 10)]
decreasing_by exact Nat.div_lt_self (by omega) (by omega)

/-- Numeric value of a decimal digit character. -/
def digitVal (c : Char) : Nat := c.toNat - 48

/-- Value of a string of decimal digit characters. -/
def digitsVal (s : Str) : Nat := s.foldl (fun a c => 10 * a + digitVal c) 0

/-- Model of Python `int(s)` on the strings this code feeds it (either a
regex `\d+` capture or the empty string when the regex did not match):
a non-empty all-digit string parses to its value, anything else raises
`ValueError`, modelled as `none`. -/
def parseNat (s : Str) : Option Nat :=
  if s ≠ [] ∧ s.all Char.isDigit then some (digitsVal s) else none

/-- Whether a Python dict holds a key. -/
def dictHasKey (d : Dict) (k : Str) : Bool := d.any (fun p => decide (p.1 = k))

/-- Model of Python `d[k] = v`: overwrite in place when the key exists,
else append, preserving insertion order. -/
def dictInsert (d : Dict) (k v : Str) : Dict :=
  if dictHasKey d k then d.map (fun p => if p.1 = k then (k, v) else p)
  else d ++ [(k, v)]

/-- Build a Python dict from key/value pairs in order (the semantics of
both the dict comprehension in `KvpClient.get_pool_records` and the
assignment loop in `KvpClientFreeBSD.get_pool_records`). -/
def dictOfPairs (l : List (Str × Str)) : Dict :=
  l.foldl (fun d p => dictInsert d p.1 p.2) []

/-- Model of Python `d.get(k)`: the value at the first (only) matching
key. -/
def dictGet : Dict → Str → Option Str
  | [], _ => none
  | (k, v) :: rest, key => if k = key then some v else dictGet rest key

/-- Flatten a list of key/value pairs to the alternating field list
`[k1, v1, k2, v2, ...]`. -/
def flatPairs : List (Str × Str) → List Str
  | [] => []
  | (k, v) :: rest => k :: v :: flatPairs rest

/-- Model of the pairing loop
`for i in range(0, len(l), 2): records[l[i]] = l[i + 1]`:
on an even-length list it yields the consecutive pairs; on an odd-length
list the access `l[i + 1]` at the final iteration raises `IndexError`,
modelled as `none`. -/
def pairUp : List Str → Option (List (Str × Str))
  | [] => some []
  | [_] => none
  | a :: b :: rest => (pairUp rest).map (fun ps => (a, b) :: ps)

/-!  ### The KVP client (`KvpClient` in tools.py)  -/

/-- The literal `Key: ` opening the key/value regex
`^Key: (?P<key>.*); Value: (?P<value>.*)\r?$`. -/
def keyLit : Str := strOf "Key: "

/-- The literal `; Value: ` separating the two greedy groups of the
key/value regex. -/
def kvSepLit : Str := strOf "; Value: "

/-- Model of matching one stdout line against the `KvpClient`
`_key_value_pattern` regex `^Key: (?P<key>.*); Value: (?P<value>.*)\r?$`:
the line must start with the `Key: ` literal, and the greedy key group
extends to the LAST occurrence of `; Value: `; the greedy value group
takes the rest of the line (`.` also matches `\r`, so the trailing
`\r?` never strips anything from the value group). -/
def parseKvLine (line : Str) : Option (Str × Str) :=
  if keyLit.isPrefixOf line then splitLast kvSepLit (line.drop keyLit.length)
  else none

/-- The literal of the `_count_record_pattern` regex
`Num records is (\d+)\r?$`. -/
def countLit : Str := strOf "Num records is "

/-- Attempt to match `Num records is (\d+)\r?$` at the start of `s`
(with `$` at the end of the line): the literal, then a non-empty digit
run, then nothing or a single carriage return. -/
def tryCountAt (s : Str) : Option Str :=
  if countLit.isPrefixOf s then
    let r := s.drop countLit.length
    let ds := r.takeWhile Char.isDigit
    let rest := r.dropWhile Char.isDigit
    if ds ≠ [] ∧ (rest = [] ∨ rest = [crCh]) then some ds else none
  else none

/-- Model of scanning one line for the unanchored regex
`Num records is (\d+)\r?$`: try every start position left to right, as
Python's regex engine does. -/
def countMatch : Str → Option Str
  | [] => none
  | c :: rest =>
    match tryCountAt (c :: rest) with
    | some ds => some ds
    | none => countMatch rest

/-- Model of `get_matched_str(output, _count_record_pattern)` (the
`lisa.util` helper is `pattern.findall` taking the first match, or the
empty string when there is none), applied line by line in order. -/
def firstCountMatch : List Str → Str
  | [] => []
  | l :: rest =>
    match countMatch l with
    | some ds => ds
    | none => firstCountMatch rest

/-- Translation of `KvpClient.get_pool_records` (tools.py:390-404) as a
function of the client's stdout and exit code: assert the exit code is
0 or 4, collect every line matching the key/value regex into a dict
(`find_patterns_in_lines` is `pattern.findall` under `re.M`, so it
matches line by line), read the reported count from the
`Num records is N` line (`int` of a failed match raises `ValueError`),
and assert the dict length equals the reported count. -/
def kvpGetPoolRecords (stdout : Str) (exitCode : Int) : Except Str Dict :=
  if exitCode = 0 ∨ exitCode = 4 then
    match parseNat (firstCountMatch (splitCh nlCh stdout)) with
    | some count =>
      if (dictOfPairs ((splitCh nlCh stdout).filterMap parseKvLine)).length
          = count then
        Except.ok (dictOfPairs ((splitCh nlCh stdout).filterMap parseKvLine))
      else Except.error (strOf "result count is not the same as stats")
    | none => Except.error (strOf "invalid literal for int")
  else Except.error (strOf "failed to get pool")

/-- Translation of `KvpClient.get_host_name` (tools.py:406-410), given
the records of pool 3: `items.get("HostName", "")`. -/
def kvpGetHostName (pool3 : Dict) : Str :=
  (dictGet pool3 (strOf "HostName")).getD []

/-!  ### The FreeBSD KVP client (`KvpClientFreeBSD` in tools.py)  -/

/-- Translation of `KvpClientFreeBSD.get_pool_records`
(tools.py:547-563) as a function of the pool file's content: split on
NUL, drop empty fields, then pair even-indexed fields (keys) with the
following odd-indexed fields (values); an odd number of remaining
fields makes `content_split[i + 1]` raise `IndexError` (`none`). -/
def kvpFreeBSDGetPoolRecords (content : Str) : Option Dict :=
  match pairUp ((splitCh nulCh content).filter (fun f => decide (f ≠ []))) with
  | some pairs => some (dictOfPairs pairs)
  | none => none

/-- Translation of `get_host_name` as inherited by `KvpClientFreeBSD`:
read pool 3, then look up key `HostName` with default `""`. -/
def kvpFreeBSDGetHostName (pool3Content : Str) : Option Str :=
  (kvpFreeBSDGetPoolRecords pool3Content).map kvpGetHostName

/-!  ### Renderings of one underlying record list in both formats  -/

/-- The stdout line the compiled kvp client prints for one record. -/
def renderKvLine (k v : Str) : Str := keyLit ++ k ++ kvSepLit ++ v

/-- The `Num records is N` stdout line for a record count. -/
def renderCountLine (n : Nat) : Str := countLit ++ natToDigits n

/-- The compiled client's stdout for an underlying record list: one
`Key: k; Value: v` line per record followed by the count line. -/
def renderStdout (records : List (Str × Str)) : Str :=
  joinLines (records.map (fun p => renderKvLine p.1 p.2) ++
    [renderCountLine records.length])

/-- The FreeBSD pool file content for the same underlying record list:
each key and each value followed by a NUL delimiter. -/
def renderPoolFile : List (Str × Str) → Str
  | [] => []
  | (k, v) :: rest => k ++ nulCh :: (v ++ nulCh :: renderPoolFile rest)

/-- Well-formedness of one underlying record: key and value are
non-empty (the FreeBSD reader drops empty fields), free of the NUL
delimiter and of newlines (both formats delimit records with them), and
free of `;` (so the `; Value: ` separator occurs exactly once in the
rendered line); finally the rendered line must not itself match the
unanchored record-count regex, which would make the compiled client's
count extraction pick it up. -/
def wfRecord (k v : Str) : Prop :=
  k ≠ [] ∧ v ≠ [] ∧ nulCh ∉ k ∧ nulCh ∉ v ∧ nlCh ∉ k ∧ nlCh ∉ v ∧
    ';' ∉ k ∧ ';' ∉ v ∧ countMatch (renderKvLine k v) = none

instance (k v : Str) : Decidable (wfRecord k v) := by
  unfold wfRecord; infer_instance

/-!  ### The Waagent tool (`Waagent` in tools.py)  -/

/-- The result of one remote command execution
(`lisa.util.process.ExecutableResult`): exit code, stdout, stderr. -/
structure ExecResult where
  exitCode : Int
  stdout : Str
  stderr : Str
deriving DecidableEq

/-- The OS families `tools.py` distinguishes via `isinstance` checks. -/
inductive OsKind
  | coreos
  | bsd
  | debian
  | redhat
  | mariner
  | otherLinux
deriving DecidableEq

/-- The remote-host oracles a `Waagent` instance interacts with:
`self.run` / `node.execute` keyed by the full command line and the sudo
flag, `self.command_exists` returning (exists, use_sudo), and the OS
kind of the node.  Each oracle is a pure function, modelling that the
remote host answers deterministically within one resolution. -/
structure Env where
  run : Str → ExecResult
  exec : Str → Bool → ExecResult
  cmdExists : Str → Bool × Bool
  os : OsKind

/-- The mutable per-instance fields set by `Waagent._initialize`
(tools.py:51-61), all starting at `None`. -/
structure WaagentState where
  pythonCmd : Option Str
  pythonUseSudo : Option Bool
  distroVersion : Option Str
  waagentConfPath : Option Str
deriving DecidableEq

/-- The state right after `Waagent._initialize`. -/
def initWaagentState : WaagentState :=
  { pythonCmd := none, pythonUseSudo := none, distroVersion := none,
    waagentConfPath := none }

/-- The interpreter candidates `Waagent._python_candidates`
(tools.py:33-40), in declared order. -/
def pythonCandidates : List Str :=
  [strOf "python3", strOf "python2", strOf "/usr/libexec/platform-python",
    strOf "/usr/share/oem/python/bin/python3"]

/-- Model of the probing loop in `get_python_cmd` (tools.py:176-182):
`for python_cmd in candidates: exists, sudo = command_exists(cmd);
if exists: break`.  Returns the loop variables after the loop (the
first existing candidate, or the last candidate when none exists)
together with the list of candidates actually probed. -/
def probeChain (ex : Str → Bool × Bool) : List Str → (Str × Bool) × List Str
  | [] => (([], false), [])
  | [c] => ((c, (ex c).2), [c])
  | c :: c2 :: rest =>
    if (ex c).1 then ((c, (ex c).2), [c])
    else
      let r := probeChain ex (c2 :: rest)
      (r.1, c :: r.2)

/-- Translation of `Waagent.get_python_cmd` (tools.py:172-187): return
the cached command when both cached fields are set; otherwise run the
probing loop over the candidates and remember its outcome.  The third
component is the list of existence probes issued remotely. -/
def waagentGetPythonCmd (env : Env) (st : WaagentState) :
    (Str × Bool) × WaagentState × List Str :=
  match st.pythonCmd, st.pythonUseSudo with
  | some c, some s => ((c, s), st, [])
  | _, _ =>
    let r := probeChain env.cmdExists pythonCandidates
    (r.1, { st with pythonCmd := some r.1.1, pythonUseSudo := some r.1.2 },
      r.2)

/-- The command line `get_distro_version` builds for the modern query
through the detected interpreter (tools.py:226-230). -/
def modernDistroCmd (pc : Str) : Str :=
  pc ++ strOf " -c " ++ [dqCh] ++
    strOf "from azurelinuxagent.common.version import get_distro;print(" ++
    [sqCh, '-', sqCh] ++ strOf ".join(get_distro()" ++
    strOf "[0:3]))" ++ [dqCh]

/-- The command line `get_distro_version` builds for the
legacy-compatible query (tools.py:235-239). -/
def legacyDistroCmd (pc : Str) : Str :=
  pc ++ strOf " -c " ++ [dqCh] ++ strOf "import platform;print(" ++
    [sqCh, '-', sqCh] ++ strOf ".join(platform.linux_distribution(0)))" ++
    [dqCh]

/-- The command line `_get_waagent_conf_path` builds for the
programmatic query (tools.py:196-200). -/
def confPathCmd (pc : Str) : Str :=
  pc ++ strOf " -c " ++ [dqCh] ++
    strOf "from azurelinuxagent.common.osutil import get_osutil;" ++
    strOf "print(get_osutil().agent_conf_file_path)" ++ [dqCh]

/-- Model of Python `s.strip(c)` for a single strip character: drop
every leading and trailing occurrence of `c`. -/
def stripBoth (c : Char) (s : Str) : Str :=
  ((s.dropWhile (fun x => decide (x = c))).reverse.dropWhile
    (fun x => decide (x = c))).reverse

/-- Model of Python `s.lower()`. -/
def lowerStr (s : Str) : Str := s.map Char.toLower

/-- Translation of `Waagent.get_distro_version` (tools.py:215-248):
cached value if set; else modern query through the interpreter; on
non-zero exit the legacy query, whose stdout is stripped of quotes and
spaces and lowercased; if that also exits non-zero, the literal
`Unknown` sentinel.  The result is remembered.  The third component is
the list of (command, sudo) remote executions issued. -/
def waagentGetDistroVersion (env : Env) (st : WaagentState) :
    Str × WaagentState × List (Str × Bool) :=
  match st.distroVersion with
  | some v => (v, st, [])
  | none =>
    let pr := waagentGetPythonCmd env st
    let pc := pr.1.1
    let useSudo := pr.1.2
    let st1 := pr.2.1
    let r1 := env.exec (modernDistroCmd pc) useSudo
    if r1.exitCode = 0 then
      (r1.stdout, { st1 with distroVersion := some r1.stdout },
        [(modernDistroCmd pc, useSudo)])
    else
      let r2 := env.exec (legacyDistroCmd pc) useSudo
      if r2.exitCode = 0 then
        let v := lowerStr (stripBoth ' ' (stripBoth dqCh r2.stdout))
        (v, { st1 with distroVersion := some v },
          [(modernDistroCmd pc, useSudo), (legacyDistroCmd pc, useSudo)])
      else
        (strOf "Unknown", { st1 with distroVersion := some (strOf "Unknown") },
          [(modernDistroCmd pc, useSudo), (legacyDistroCmd pc, useSudo)])

/-- Translation of `Waagent._get_waagent_conf_path` (tools.py:189-213):
cached value if set; else the programmatic query through the
interpreter; on non-zero exit a static per-OS-family fallback path.
The result is remembered. -/
def waagentGetConfPath (env : Env) (st : WaagentState) :
    Str × WaagentState × List (Str × Bool) :=
  match st.waagentConfPath with
  | some p => (p, st, [])
  | none =>
    let pr := waagentGetPythonCmd env st
    let pc := pr.1.1
    let useSudo := pr.1.2
    let st1 := pr.2.1
    let r := env.exec (confPathCmd pc) useSudo
    let p :=
      if r.exitCode = 0 then r.stdout
      else
        match env.os with
        | OsKind.coreos => strOf "/usr/share/oem/waagent.conf"
        | OsKind.bsd => strOf "/usr/local/etc/waagent.conf"
        | _ => strOf "/etc/waagent.conf"
    (p, { st1 with waagentConfPath := some p }, [(confPathCmd pc, useSudo)])

/-- Model of `get_matched_str(stdout, __version_pattern)` with the
lookbehind pattern `(?<=\-)([^\s]+)`: the first maximal run of
non-whitespace characters preceded by a hyphen, or the empty string. -/
def versionMatch : Str → Str
  | [] => []
  | c :: rest =>
    if c = '-' ∧ rest ≠ [] ∧ (rest.headD ' ').isWhitespace = false then
      rest.takeWhile (fun x => x.isWhitespace = false)
    else versionMatch rest

/-- The outcome of the `get_version` probe chain: the candidate
commands invoked in order, the final value of `self._command`, and the
final `ExecutableResult`. -/
structure ProbeOutcome where
  invoked : List Str
  command : Str
  result : ExecResult
deriving DecidableEq

/-- The second candidate command of `Waagent.get_version`. -/
def sbinWaagentCmd : Str := strOf "/usr/sbin/waagent"

/-- The third candidate command of `Waagent.get_version`. -/
def py3WaagentCmd : Str := strOf "python3 /usr/sbin/waagent"

/-- Translation of `Waagent.get_version` (tools.py:63-74): run
`self._command -version`; on non-zero exit set `self._command` to
`/usr/sbin/waagent` and retry; on non-zero exit again set it to
`python3 /usr/sbin/waagent` and retry; finally extract the version from
the last result's stdout.  `cmd0` is the incoming `self._command`
(`waagent` after `_initialize` on a non-CoreOS node).  Runs are keyed
by the candidate command. -/
def waagentGetVersion (cmd0 : Str) (run : Str → ExecResult) :
    ProbeOutcome × Str :=
  let r1 := run cmd0
  if r1.exitCode ≠ 0 then
    let r2 := run sbinWaagentCmd
    if r2.exitCode ≠ 0 then
      let r3 := run py3WaagentCmd
      ({ invoked := [cmd0, sbinWaagentCmd, py3WaagentCmd],
         command := py3WaagentCmd, result := r3 }, versionMatch r3.stdout)
    else
      ({ invoked := [cmd0, sbinWaagentCmd], command := sbinWaagentCmd,
         result := r2 }, versionMatch r2.stdout)
  else
    ({ invoked := [cmd0], command := cmd0, result := r1 },
      versionMatch r1.stdout)

/-!  ### The LIS driver tool (`LisDriver` in tools.py)  -/

/-- A distribution version as compared by `os.information.version`
(a semantic version triple; the source compares it against the literal
`7.8.0`). -/
structure VersionInfo where
  major : Nat
  minor : Nat
  patch : Nat
deriving DecidableEq

/-- Lexicographic strict order on version triples, the semantics of the
semver comparison `version < "7.8.0"`. -/
def versionLt (a b : VersionInfo) : Bool :=
  decide (a.major < b.major) ||
    (decide (a.major = b.major) &&
      (decide (a.minor < b.minor) ||
        (decide (a.minor = b.minor) && decide (a.patch < b.patch))))

/-- The declared version ceiling `7.8.0` of `LisDriver.can_install`. -/
def lisCeiling : VersionInfo := { major := 7, minor := 8, patch := 0 }

/-- The facts about the node's OS that `LisDriver.can_install`
inspects: whether it is a Redhat(-derived) distro, and its version. -/
structure OsInfo where
  isRedhat : Bool
  version : VersionInfo
deriving DecidableEq

/-- The message of the `UnsupportedDistroException` raised by
`LisDriver.can_install`. -/
def lisUnsupportedMsg : Str := strOf "lis driver can't be installed on this distro"

/-- Translation of `LisDriver.can_install` (tools.py:286-296): `True`
when the OS is Redhat with version strictly below `7.8.0`; otherwise
raise `UnsupportedDistroException` (the spec's `UnsupportedVersion`
kind). -/
def lisCanInstall (os : OsInfo) : Except Str Bool :=
  if os.isRedhat && versionLt os.version lisCeiling then Except.ok true
  else Except.error lisUnsupportedMsg

/-- Modelled from the spec: the resolution engine's install step
(spec 4.3/4.4) lives in `lisa.executable.Tool`, which is not among the
sources; per the spec, an installation strategy runs only after the
descriptor's gate (`can_install`) permits it, so a raising gate
propagates the error with no install command executed.  `doInstall`
yields the strategy's success flag and the remote commands it would
issue. -/
def lisInstallGate (os : OsInfo) (doInstall : Unit → Bool × List Str) :
    Except Str Bool × List Str :=
  match lisCanInstall os with
  | Except.error e => (Except.error e, [])
  | Except.ok _ =>
    let r := doInstall ()
    (Except.ok r.1, r.2)

/-!  ### KvpClient installation (`KvpClient._install` in tools.py)  -/

/-- The installation strategy `KvpClient._install` selects. -/
inductive KvpInstallAction
  | download (url : Str)
  | buildFromSource (compileArgs : Str)
deriving DecidableEq

/-- The static `KvpClient._binaries` table (tools.py:349-354), an
architecture-to-URL map. -/
def kvpBinaries : List (Str × Str) :=
  [(strOf "x86_64",
    strOf "https://raw.githubusercontent.com/microsoft/lis-test/master/WS2012R2/lisa/tools/KVP/kvp_client64"),
   (strOf "i686",
    strOf "https://raw.githubusercontent.com/microsoft/lis-test/master/WS2012R2/lisa/tools/KVP/kvp_client32")]

/-- Translation of the strategy choice in `KvpClient._install`
(tools.py:412-421): `binary_location = _binaries.get(arch, "")`; a
non-empty location selects download, else build-from-source, which
compiles the fetched source with the fixed `-std=c99` flag
(tools.py:444-446). -/
def kvpInstallAction (arch : Str) : KvpInstallAction :=
  let loc := (dictGet kvpBinaries arch).getD []
  if loc ≠ [] then KvpInstallAction.download loc
  else KvpInstallAction.buildFromSource (strOf "-std=c99")

/-- Translation of `KvpClient._install` (tools.py:412-421): perform the
selected strategy, then finish by re-running `_check_exists` and return
that check's result.  `checkAfter` is the oracle giving the existence
check's outcome after the chosen action ran. -/
def kvpInstall (arch : Str) (checkAfter : KvpInstallAction → Bool) :
    KvpInstallAction × Bool :=
  let a := kvpInstallAction arch
  (a, checkAfter a)

/-!  ## Helper lemmas  -/

theorem splitCh_ne_nil (c : Char) (s : Str) : splitCh c s ≠ [] := by
  induction s with
  | nil => simp [splitCh]
  | cons x xs ih =>
    rw [splitCh]
    cases hx : splitCh c xs with
    | nil => simp
    | cons s1 rest => by_cases hxc : x = c <;> simp [hxc]

theorem splitCh_no_sep {c : Char} {s : Str} (h : c ∉ s) : splitCh c s = [s] := by
  induction s with
  | nil => rfl
  | cons x xs ih =>
    have hx : x ≠ c := fun hh => h (hh ▸ List.mem_cons_self x xs)
    have hxs : c ∉ xs := fun hh => h (List.mem_cons_of_mem _ hh)
    rw [splitCh, ih hxs]
    simp [hx]

theorem splitCh_append_cons {c : Char} {k : Str} (s : Str) (h : c ∉ k) :
    splitCh c (k ++ c :: s) = k :: splitCh c s := by
  induction k with
  | nil =>
    simp only [List.nil_append]
    rw [splitCh]
    cases hx : splitCh c s with
    | nil => exact absurd hx (splitCh_ne_nil c s)
    | cons s1 rest => simp [← hx]
  | cons x k ih =>
    have hx : x ≠ c := fun hh => h (hh ▸ List.mem_cons_self x k)
    have hk : c ∉ k := fun hh => h (List.mem_cons_of_mem _ hh)
    rw [List.cons_append, splitCh, ih hk]
    simp [hx]

theorem splitCh_joinLines (ls : List Str) (hne : ls ≠ [])
    (hl : ∀ l ∈ ls, nlCh ∉ l) : splitCh nlCh (joinLines ls) = ls := by
  induction ls with
  | nil => exact absurd rfl hne
  | cons l rest ih =>
    cases rest with
    | nil => rw [joinLines]; exact splitCh_no_sep (hl l (by simp))
    | cons l2 rest2 =>
      have hj : joinLines (l :: l2 :: rest2) = l ++ nlCh :: joinLines (l2 :: rest2) := rfl
      rw [hj, splitCh_append_cons _ (hl l (by simp))]
      rw [ih (by simp) (fun x hx => hl x (by simp [hx]))]

theorem splitLast_none {c : Char} {t s : Str} (h : c ∉ s) :
    splitLast (c :: t) s = none := by
  induction s with
  | nil => rfl
  | cons x xs ih =>
    rw [splitLast, ih (fun hh => h (List.mem_cons_of_mem _ hh))]
    have hx : ¬(c = x) := fun hh => h (hh ▸ List.mem_cons_self x xs)
    have hpre : (c :: t).isPrefixOf (x :: xs) = false := by
      simp [List.isPrefixOf, hx]
    simp [hpre]

theorem splitLast_append {c : Char} {t k v : Str} (hct : c ∉ t) (hk : c ∉ k)
    (hv : c ∉ v) : splitLast (c :: t) (k ++ (c :: t) ++ v) = some (k, v) := by
  induction k with
  | nil =>
    simp only [List.nil_append, List.cons_append]
    rw [splitLast]
    have hnot : c ∉ t ++ v := fun hm => (List.mem_append.mp hm).elim hct hv
    rw [splitLast_none hnot]
    have hpre : (c :: t).isPrefixOf (c :: (t ++ v)) = true := by
      rw [List.isPrefixOf_iff_prefix, show c :: (t ++ v) = (c :: t) ++ v from rfl]
      exact List.prefix_append _ _
    simp only [hpre, if_true]
    rw [show c :: (t ++ v) = (c :: t) ++ v from rfl, List.drop_left]
  | cons x k ih =>
    have hx : c ∉ k := fun hh => hk (List.mem_cons_of_mem _ hh)
    rw [List.cons_append, List.cons_append, splitLast, ih hx]

theorem splitLast_kvSep {k v : Str} (hk : ';' ∉ k) (hv : ';' ∉ v) :
    splitLast kvSepLit (k ++ kvSepLit ++ v) = some (k, v) := by
  rw [show kvSepLit = ';' :: strOf " Value: " from by decide]
  exact splitLast_append (by decide) hk hv

theorem parseKvLine_render {k v : Str} (hk : ';' ∉ k) (hv : ';' ∉ v) :
    parseKvLine (renderKvLine k v) = some (k, v) := by
  unfold parseKvLine renderKvLine
  have hpre : keyLit.isPrefixOf (keyLit ++ k ++ kvSepLit ++ v) = true := by
    rw [List.isPrefixOf_iff_prefix,
      show keyLit ++ k ++ kvSepLit ++ v = keyLit ++ (k ++ kvSepLit ++ v) by
        simp [List.append_assoc]]
    exact List.prefix_append _ _
  rw [hpre, if_pos rfl,
    show keyLit ++ k ++ kvSepLit ++ v = keyLit ++ (k ++ kvSepLit ++ v) by
      simp [List.append_assoc],
    List.drop_left]
  exact splitLast_kvSep hk hv

theorem parseKvLine_countLine (n : Nat) :
    parseKvLine (renderCountLine n) = none := by
  unfold parseKvLine
  have h : keyLit.isPrefixOf (renderCountLine n) = false := by
    rw [show keyLit = 'K' :: strOf "ey: " from by decide]
    unfold renderCountLine
    rw [show countLit = 'N' :: strOf "um records is " from by decide,
      List.cons_append]
    simp [List.isPrefixOf]
  rw [h]
  simp

theorem digitCh_isDigit {d : Nat} (h : d < 10) : (digitCh d).isDigit = true := by
  interval_cases d <;> decide

theorem digitVal_digitCh {d : Nat} (h : d < 10) : digitVal (digitCh d) = d := by
  interval_cases d <;> decide

theorem natToDigits_all_digit (n : Nat) :
    ∀ c ∈ natToDigits n, c.isDigit = true := by
  induction n using Nat.strong_induction_on with
  | _ n ih =>
    rw [natToDigits]
    by_cases h : n < 10
    · rw [dif_pos h]
      intro c hc
      rw [List.mem_singleton.mp hc]
      exact digitCh_isDigit h
    · rw [dif_neg h]
      intro c hc
      rcases List.mem_append.mp hc with h1 | h1
      · exact ih (n / 10) (Nat.div_lt_self (by omega) (by omega)) c h1
      · rw [List.mem_singleton.mp h1]
        exact digitCh_isDigit (Nat.mod_lt n (by omega))

theorem natToDigits_ne_nil (n : Nat) : natToDigits n ≠ [] := by
  rw [natToDigits]
  by_cases h : n < 10
  · rw [dif_pos h]; simp
  · rw [dif_neg h]; simp

theorem digitsVal_append (s : Str) (c : Char) :
    digitsVal (s ++ [c]) = 10 * digitsVal s + digitVal c := by
  unfold digitsVal
  rw [List.foldl_append]
  rfl

theorem digitsVal_natToDigits (n : Nat) : digitsVal (natToDigits n) = n := by
  induction n using Nat.strong_induction_on with
  | _ n ih =>
    rw [natToDigits]
    by_cases h : n < 10
    · rw [dif_pos h]
      show 10 * 0 + digitVal (digitCh n) = n
      rw [digitVal_digitCh h]
      omega
    · rw [dif_neg h, digitsVal_append,
        ih (n / 10) (Nat.div_lt_self (by omega) (by omega)),
        digitVal_digitCh (Nat.mod_lt n (by omega))]
      omega

theorem parseNat_natToDigits (n : Nat) : parseNat (natToDigits n) = some n := by
  unfold parseNat
  rw [if_pos ⟨natToDigits_ne_nil n,
    List.all_eq_true.mpr (natToDigits_all_digit n)⟩]
  rw [digitsVal_natToDigits]

theorem tryCountAt_countLine (n : Nat) :
    tryCountAt (renderCountLine n) = some (natToDigits n) := by
  unfold tryCountAt renderCountLine
  have hpre : countLit.isPrefixOf (countLit ++ natToDigits n) = true := by
    rw [List.isPrefixOf_iff_prefix]
    exact List.prefix_append _ _
  rw [hpre, if_pos rfl, List.drop_left]
  have hdrop : (natToDigits n).dropWhile Char.isDigit = [] := by
    rw [List.dropWhile_eq_nil_iff]
    exact natToDigits_all_digit n
  have htake : (natToDigits n).takeWhile Char.isDigit = natToDigits n := by
    have := List.takeWhile_append_dropWhile (p := Char.isDigit)
      (l := natToDigits n)
    rw [hdrop, List.append_nil] at this
    exact this
  simp only [htake, hdrop]
  simp [natToDigits_ne_nil n]

theorem countMatch_countLine (n : Nat) :
    countMatch (renderCountLine n) = some (natToDigits n) := by
  have h2 : renderCountLine n =
      'N' :: (strOf "um records is " ++ natToDigits n) := by
    unfold renderCountLine
    rw [show countLit = 'N' :: strOf "um records is " from by decide,
      List.cons_append]
  rw [h2, countMatch, ← h2, tryCountAt_countLine]

theorem firstCountMatch_aux (lines : List Str) (n : Nat)
    (h : ∀ l ∈ lines, countMatch l = none) :
    firstCountMatch (lines ++ [renderCountLine n]) = natToDigits n := by
  induction lines with
  | nil =>
    simp only [List.nil_append]
    rw [firstCountMatch, countMatch_countLine]
  | cons l rest ih =>
    rw [List.cons_append, firstCountMatch, h l (by simp)]
    exact ih (fun x hx => h x (by simp [hx]))

theorem filterMap_parseKv (records : List (Str × Str)) (n : Nat)
    (hwf : ∀ p ∈ records, ';' ∉ p.1 ∧ ';' ∉ p.2) :
    (records.map (fun p => renderKvLine p.1 p.2) ++
      [renderCountLine n]).filterMap parseKvLine = records := by
  induction records with
  | nil => simp [parseKvLine_countLine]
  | cons p rest ih =>
    simp only [List.map_cons, List.cons_append, List.filterMap_cons]
    rw [parseKvLine_render (hwf p (by simp)).1 (hwf p (by simp)).2]
    rw [ih (fun q hq => hwf q (by simp [hq]))]

theorem foldl_dictInsert_fresh (l : List (Str × Str)) :
    ∀ acc : Dict, (∀ p ∈ l, dictHasKey acc p.1 = false) →
      (l.map Prod.fst).Nodup →
      l.foldl (fun d p => dictInsert d p.1 p.2) acc = acc ++ l := by
  induction l with
  | nil => intro acc _ _; simp
  | cons p rest ih =>
    intro acc hfresh hnd
    obtain ⟨k, v⟩ := p
    simp only [List.foldl_cons]
    have h1 : dictInsert acc k v = acc ++ [(k, v)] := by
      unfold dictInsert
      rw [hfresh (k, v) (by simp)]
      simp
    rw [h1]
    rw [List.map_cons] at hnd
    have hk_notmem : k ∉ rest.map Prod.fst := (List.nodup_cons.mp hnd).1
    have hnd2 : (rest.map Prod.fst).Nodup := (List.nodup_cons.mp hnd).2
    rw [ih (acc ++ [(k, v)]) ?_ hnd2]
    · simp
    · intro q hq
      unfold dictHasKey
      rw [List.any_append]
      have ha : dictHasKey acc q.1 = false :=
        hfresh q (List.mem_cons_of_mem _ hq)
      unfold dictHasKey at ha
      rw [ha]
      have hne : k ≠ q.1 := by
        intro he
        exact hk_notmem (he ▸ List.mem_map.mpr ⟨q, hq, rfl⟩)
      simp [hne]

theorem dictOfPairs_nodup (l : List (Str × Str))
    (h : (l.map Prod.fst).Nodup) : dictOfPairs l = l := by
  unfold dictOfPairs
  rw [foldl_dictInsert_fresh l [] (fun p _ => rfl) h]
  simp

theorem splitCh_renderPoolFile (records : List (Str × Str))
    (h : ∀ p ∈ records, nulCh ∉ p.1 ∧ nulCh ∉ p.2) :
    splitCh nulCh (renderPoolFile records) = flatPairs records ++ [[]] := by
  induction records with
  | nil => rfl
  | cons p rest ih =>
    obtain ⟨k, v⟩ := p
    rw [renderPoolFile, splitCh_append_cons _ (h (k, v) (by simp)).1,
      splitCh_append_cons _ (h (k, v) (by simp)).2,
      ih (fun q hq => h q (by simp [hq]))]
    rfl

theorem mem_flatPairs {a : Str} :
    ∀ {records : List (Str × Str)}, a ∈ flatPairs records →
      ∃ p ∈ records, a = p.1 ∨ a = p.2 := by
  intro records
  induction records with
  | nil => intro h; exact absurd h (by simp [flatPairs])
  | cons p rest ih =>
    obtain ⟨k, v⟩ := p
    intro h
    rw [flatPairs, List.mem_cons, List.mem_cons] at h
    rcases h with h | h | h
    · exact ⟨(k, v), by simp, Or.inl h⟩
    · exact ⟨(k, v), by simp, Or.inr h⟩
    · obtain ⟨q, hq, hor⟩ := ih h
      exact ⟨q, List.mem_cons_of_mem _ hq, hor⟩

theorem filter_flatPairs (records : List (Str × Str))
    (h : ∀ p ∈ records, p.1 ≠ [] ∧ p.2 ≠ []) :
    (flatPairs records ++ [[]]).filter (fun f => decide (f ≠ [])) =
      flatPairs records := by
  rw [List.filter_append]
  have h2 : ([([] : Str)] : List Str).filter (fun f => decide (f ≠ [])) = [] := rfl
  rw [h2, List.append_nil, List.filter_eq_self.mpr]
  intro a ha
  obtain ⟨p, hp, hor⟩ := mem_flatPairs ha
  rcases hor with rfl | rfl
  · simpa using (h p hp).1
  · simpa using (h p hp).2

theorem pairUp_flatPairs (records : List (Str × Str)) :
    pairUp (flatPairs records) = some records := by
  induction records with
  | nil => rfl
  | cons p rest ih =>
    obtain ⟨k, v⟩ := p
    rw [flatPairs, pairUp, ih]
    rfl

theorem pairUp_odd : ∀ l : List Str, l.length % 2 = 1 → pairUp l = none
  | [], h => by simp at h
  | [_], _ => rfl
  | a :: b :: rest, h => by
    rw [pairUp, pairUp_odd rest (by simp [List.length_cons] at h ⊢; omega)]
    rfl

theorem nl_not_mem_renderKvLine {k v : Str} (hk : nlCh ∉ k) (hv : nlCh ∉ v) :
    nlCh ∉ renderKvLine k v := by
  unfold renderKvLine
  intro hm
  simp only [List.mem_append] at hm
  rcases hm with ((h1 | h1) | h1) | h1
  · exact absurd h1 (by decide)
  · exact hk h1
  · exact absurd h1 (by decide)
  · exact hv h1

theorem nl_not_mem_renderCountLine (n : Nat) : nlCh ∉ renderCountLine n := by
  unfold renderCountLine
  intro hm
  rcases List.mem_append.mp hm with h1 | h1
  · exact absurd h1 (by decide)
  · have := natToDigits_all_digit n nlCh h1
    exact absurd this (by decide)

/-- C1: the two variants of the key/value-pool capability return the
same dictionary from the records operation.  For every list of
well-formed underlying records with pairwise-distinct keys,
`KvpClient.get_pool_records` applied to the compiled client's stdout
rendering of the records (with exit code 0) and
`KvpClientFreeBSD.get_pool_records` applied to the NUL-delimited pool
file rendering of the same records produce one and the same
key-to-value map. -/
theorem kvp_variants_agree (records : List (Str × Str))
    (hwf : ∀ p ∈ records, wfRecord p.1 p.2)
    (hnd : (records.map Prod.fst).Nodup) :
    ∃ d, kvpGetPoolRecords (renderStdout records) 0 = Except.ok d ∧
      kvpFreeBSDGetPoolRecords (renderPoolFile records) = some d := by
  refine ⟨records, ?_, ?_⟩
  · unfold kvpGetPoolRecords
    rw [if_pos (Or.inl rfl)]
    have hlines : splitCh nlCh (renderStdout records) =
        records.map (fun p => renderKvLine p.1 p.2) ++
          [renderCountLine records.length] := by
      unfold renderStdout
      apply splitCh_joinLines
      · simp
      · intro l hl
        rcases List.mem_append.mp hl with h1 | h1
        · obtain ⟨p, hp, rfl⟩ := List.mem_map.mp h1
          obtain ⟨_, _, _, _, hk, hv, _, _, _⟩ := hwf p hp
          exact nl_not_mem_renderKvLine hk hv
        · rw [List.mem_singleton.mp h1]
          exact nl_not_mem_renderCountLine _
    rw [hlines,
      filterMap_parseKv records records.length (fun p hp => by
        obtain ⟨_, _, _, _, _, _, hk, hv, _⟩ := hwf p hp
        exact ⟨hk, hv⟩),
      firstCountMatch_aux _ records.length (fun l hl => by
        obtain ⟨p, hp, rfl⟩ := List.mem_map.mp hl
        exact (hwf p hp).2.2.2.2.2.2.2.2),
      parseNat_natToDigits, dictOfPairs_nodup records hnd]
    simp
  · unfold kvpFreeBSDGetPoolRecords
    rw [splitCh_renderPoolFile records (fun p hp => by
        obtain ⟨_, _, h1, h2, _⟩ := hwf p hp
        exact ⟨h1, h2⟩),
      filter_flatPairs records (fun p hp => by
        obtain ⟨h1, h2, _⟩ := hwf p hp
        exact ⟨h1, h2⟩),
      pairUp_flatPairs]
    show some (dictOfPairs records) = some records
    rw [dictOfPairs_nodup records hnd]

/-- Witness for C1 at a concrete record list: the hypotheses hold and
both variants return the same dictionary. -/
theorem kvp_variants_agree_witness :
    (∀ p ∈ ([(strOf "a", strOf "b"), (strOf "c", strOf "d")] :
      List (Str × Str)), wfRecord p.1 p.2) ∧
    ∃ d,
      kvpGetPoolRecords
        (renderStdout [(strOf "a", strOf "b"), (strOf "c", strOf "d")]) 0 =
        Except.ok d ∧
      kvpFreeBSDGetPoolRecords
        (renderPoolFile [(strOf "a", strOf "b"), (strOf "c", strOf "d")]) =
        some d :=
  ⟨by decide, kvp_variants_agree _ (by decide) (by decide)⟩

/-- C8: on a BSD profile, a pool file with content
`HostName\0example-host\0` yields exactly the map
`HostName -> example-host` from `get_pool_records`, and `get_host_name`
(pool 3, key `HostName`) yields `example-host`. -/
theorem kvp_freebsd_hostname_scenario :
    kvpFreeBSDGetPoolRecords (strOf "HostName\x00example-host\x00") =
      some [(strOf "HostName", strOf "example-host")] ∧
    kvpFreeBSDGetHostName (strOf "HostName\x00example-host\x00") =
      some (strOf "example-host") := by
  constructor <;> decide

/-- C9: `KvpClientFreeBSD.get_pool_records` is not total: whenever the
pool file content yields an odd number of non-empty NUL-separated
fields, the pairing loop indexes one past the end of the field list and
the operation fails with an out-of-range index error (`none`) instead
of returning a dictionary. -/
theorem kvp_freebsd_odd_fields_crash (content : Str)
    (h : ((splitCh nulCh content).filter
      (fun f => decide (f ≠ []))).length % 2 = 1) :
    kvpFreeBSDGetPoolRecords content = none := by
  unfold kvpFreeBSDGetPoolRecords
  rw [pairUp_odd _ h]

/-- Witness for C9: the content `a\0b\0c\0` has three non-empty fields
and the operation fails. -/
theorem kvp_freebsd_odd_fields_crash_witness :
    kvpFreeBSDGetPoolRecords (strOf "a\x00b\x00c\x00") = none :=
  kvp_freebsd_odd_fields_crash _ (by decide)

/-- C10: `KvpClient.get_pool_records` succeeds exactly when the exit
code is 0 or 4 and the number of distinct parsed records equals the
count reported by the `Num records is N` line: a successful result
forces both conditions, a bad exit code raises the `failed to get pool`
assertion, and a count mismatch (with an acceptable exit code) raises
the `result count is not the same as stats` assertion. -/
theorem kvp_get_pool_records_assertions (stdout : Str) (exitCode : Int) :
    (∀ d, kvpGetPoolRecords stdout exitCode = Except.ok d →
      (exitCode = 0 ∨ exitCode = 4) ∧
      parseNat (firstCountMatch (splitCh nlCh stdout)) = some d.length ∧
      d = dictOfPairs ((splitCh nlCh stdout).filterMap parseKvLine)) ∧
    (¬(exitCode = 0 ∨ exitCode = 4) →
      kvpGetPoolRecords stdout exitCode =
        Except.error (strOf "failed to get pool")) ∧
    (∀ n, parseNat (firstCountMatch (splitCh nlCh stdout)) = some n →
      (dictOfPairs ((splitCh nlCh stdout).filterMap parseKvLine)).length ≠ n →
      (exitCode = 0 ∨ exitCode = 4) →
      kvpGetPoolRecords stdout exitCode =
        Except.error (strOf "result count is not the same as stats")) := by
  refine ⟨?_, ?_, ?_⟩
  · intro d hd
    unfold kvpGetPoolRecords at hd
    split at hd
    · next hexit =>
      split at hd
      · next n hn =>
        split at hd
        · next hlen =>
          have hd2 : dictOfPairs ((splitCh nlCh stdout).filterMap parseKvLine)
              = d := by
            injection hd
          refine ⟨hexit, ?_, hd2.symm⟩
          rw [hn, ← hd2, hlen]
        · exact absurd hd (by simp)
      · exact absurd hd (by simp)
    · exact absurd hd (by simp)
  · intro hexit
    unfold kvpGetPoolRecords
    rw [if_neg hexit]
  · intro n hn hlen hexit
    unfold kvpGetPoolRecords
    rw [if_pos hexit, hn]
    show (if _ = n then _ else _) = _
    rw [if_neg hlen]

/-- Witness for C10: a stdout with two records under the same key
collapses to one dictionary entry against the reported count 2, and
the operation raises the count-mismatch assertion; an exit code of 3
raises the exit-code assertion. -/
theorem kvp_get_pool_records_assertions_witness :
    kvpGetPoolRecords
      (strOf "Key: a; Value: 1\nKey: a; Value: 2\nNum records is 2") 0 =
      Except.error (strOf "result count is not the same as stats") ∧
    kvpGetPoolRecords (strOf "Key: a; Value: 1\nNum records is 1") 3 =
      Except.error (strOf "failed to get pool") :=
  ⟨(kvp_get_pool_records_assertions _ 0).2.2 2 (by decide) (by decide)
      (Or.inl rfl),
    (kvp_get_pool_records_assertions _ 3).2.1 (by decide)⟩

theorem probeChain_first_success (ex : Str → Bool × Bool) :
    ∀ (l1 : List Str) (c : Str) (l2 : List Str),
      (∀ x ∈ l1, (ex x).1 = false) → (ex c).1 = true →
      probeChain ex (l1 ++ c :: l2) = ((c, (ex c).2), l1 ++ [c]) := by
  intro l1
  induction l1 with
  | nil =>
    intro c l2 _ hc
    cases l2 with
    | nil => rw [List.nil_append, probeChain]
    | cons d l2 =>
      rw [List.nil_append, probeChain, if_pos hc]
      simp
  | cons x l1 ih =>
    intro c l2 hfail hc
    rw [List.cons_append]
    cases hL : l1 ++ c :: l2 with
    | nil => exact absurd hL (by simp)
    | cons e es =>
      rw [probeChain, if_neg (by rw [hfail x (by simp)]; simp), ← hL,
        ih c l2 (fun y hy => hfail y (by simp [hy])) hc]
      rfl

/-- C2: probe chains short-circuit on first success and remember the
working form.  For `Waagent.get_version` (with the initial command
`waagent` set by `_initialize` on non-CoreOS nodes): when the first
candidate exits 0 only it is invoked and it stays the remembered
command; when it fails and `/usr/sbin/waagent` exits 0, exactly those
two are invoked, `/usr/sbin/waagent` becomes the remembered command and
`python3 /usr/sbin/waagent` is never invoked.  For
`Waagent.get_python_cmd`: whenever the candidate list splits as
`l1 ++ c :: l2` with every candidate of `l1` non-existing and `c`
existing, exactly `l1 ++ [c]` are probed (no candidate of `l2`), the
result is `c` with its sudo flag, and the new state remembers `c`. -/
theorem probe_chain_short_circuit :
    (∀ run : Str → ExecResult,
      ((run (strOf "waagent")).exitCode = 0 →
        (waagentGetVersion (strOf "waagent") run).1 =
          { invoked := [strOf "waagent"], command := strOf "waagent",
            result := run (strOf "waagent") }) ∧
      ((run (strOf "waagent")).exitCode ≠ 0 →
        (run sbinWaagentCmd).exitCode = 0 →
        (waagentGetVersion (strOf "waagent") run).1 =
          { invoked := [strOf "waagent", sbinWaagentCmd],
            command := sbinWaagentCmd, result := run sbinWaagentCmd } ∧
        py3WaagentCmd ∉ (waagentGetVersion (strOf "waagent") run).1.invoked)) ∧
    (∀ (env : Env) (st : WaagentState) (l1 : List Str) (c : Str) (l2 : List Str),
      pythonCandidates = l1 ++ c :: l2 →
      (∀ x ∈ l1, (env.cmdExists x).1 = false) → (env.cmdExists c).1 = true →
      st.pythonCmd = none →
      (waagentGetPythonCmd env st).1 = (c, (env.cmdExists c).2) ∧
      (waagentGetPythonCmd env st).2.2 = l1 ++ [c] ∧
      (waagentGetPythonCmd env st).2.1.pythonCmd = some c) := by
  constructor
  · intro run
    constructor
    · intro h1
      unfold waagentGetVersion
      rw [if_neg (by simp [h1])]
    · intro h1 h2
      unfold waagentGetVersion
      rw [if_pos h1, if_neg (by simp [h2])]
      refine ⟨rfl, ?_⟩
      show py3WaagentCmd ∉ [strOf "waagent", sbinWaagentCmd]
      decide
  · intro env st l1 c l2 hsplit hfail hc hnone
    obtain ⟨pc, ps, dv, wc⟩ := st
    simp only at hnone
    subst hnone
    unfold waagentGetPythonCmd
    rw [show pythonCandidates = l1 ++ c :: l2 from hsplit,
      probeChain_first_success env.cmdExists l1 c l2 hfail hc]
    exact ⟨rfl, rfl, rfl⟩

/-- Witness for C2 at concrete oracles: the first `get_version`
candidate fails, the second succeeds, and only those two are invoked;
the first interpreter candidate does not exist, the second does, and
only those two are probed. -/
theorem probe_chain_short_circuit_witness :
    ((waagentGetVersion (strOf "waagent")
        (fun cmd => if cmd = strOf "waagent"
          then ⟨1, [], strOf "e1"⟩
          else ⟨0, strOf "WALinuxAgent-2.9.1.1 running", []⟩)).1 =
      ⟨[strOf "waagent", sbinWaagentCmd], sbinWaagentCmd,
        ⟨0, strOf "WALinuxAgent-2.9.1.1 running", []⟩⟩ ∧
      py3WaagentCmd ∉ (waagentGetVersion (strOf "waagent")
        (fun cmd => if cmd = strOf "waagent"
          then ⟨1, [], strOf "e1"⟩
          else ⟨0, strOf "WALinuxAgent-2.9.1.1 running", []⟩)).1.invoked) ∧
    (waagentGetPythonCmd
        ⟨fun _ => ⟨0, [], []⟩, fun _ _ => ⟨0, [], []⟩,
          fun cmd => (decide (cmd ≠ strOf "python3"), false),
          OsKind.otherLinux⟩
        initWaagentState).1 = (strOf "python2", false) := by
  constructor
  · have h := (probe_chain_short_circuit.1
      (fun cmd => if cmd = strOf "waagent"
        then ⟨1, [], strOf "e1"⟩
        else ⟨0, strOf "WALinuxAgent-2.9.1.1 running", []⟩)).2
      (by decide) (by decide)
    exact ⟨by rw [h.1]; decide, h.2⟩
  · have h := (probe_chain_short_circuit.2
      ⟨fun _ => ⟨0, [], []⟩, fun _ _ => ⟨0, [], []⟩,
        fun cmd => (decide (cmd ≠ strOf "python3"), false),
        OsKind.otherLinux⟩
      initWaagentState [strOf "python3"] (strOf "python2")
      [strOf "/usr/libexec/platform-python",
        strOf "/usr/share/oem/python/bin/python3"]
      (by decide) (by decide) (by decide) rfl).1
    rw [h]

/-- C3: each derived fact is computed at most once per context and then
reused.  After any first call to `get_python_cmd`,
`_get_waagent_conf_path` or `get_distro_version` has populated its
cached field, calling the same method again on the resulting state
returns exactly the first call's value, leaves the state unchanged, and
issues no remote execution at all. -/
theorem derived_facts_cached_once (env : Env) (st : WaagentState) :
    waagentGetPythonCmd env (waagentGetPythonCmd env st).2.1 =
      ((waagentGetPythonCmd env st).1,
        (waagentGetPythonCmd env st).2.1, []) ∧
    waagentGetConfPath env (waagentGetConfPath env st).2.1 =
      ((waagentGetConfPath env st).1,
        (waagentGetConfPath env st).2.1, []) ∧
    waagentGetDistroVersion env (waagentGetDistroVersion env st).2.1 =
      ((waagentGetDistroVersion env st).1,
        (waagentGetDistroVersion env st).2.1, []) := by
  obtain ⟨pc, ps, dv, wc⟩ := st
  refine ⟨?_, ?_, ?_⟩
  · cases pc <;> cases ps <;> simp [waagentGetPythonCmd]
  · cases wc <;> simp [waagentGetConfPath]
  · cases dv with
    | some v => simp [waagentGetDistroVersion]
    | none =>
      simp only [waagentGetDistroVersion]
      by_cases h1 : (env.exec (modernDistroCmd
          (waagentGetPythonCmd env ⟨pc, ps, none, wc⟩).1.1)
          (waagentGetPythonCmd env ⟨pc, ps, none, wc⟩).1.2).exitCode = 0
      · simp only [if_pos h1]
      · by_cases h2 : (env.exec (legacyDistroCmd
            (waagentGetPythonCmd env ⟨pc, ps, none, wc⟩).1.1)
            (waagentGetPythonCmd env ⟨pc, ps, none, wc⟩).1.2).exitCode = 0
        · simp only [if_neg h1, if_pos h2]
        · simp only [if_neg h1, if_neg h2]

/-- Counterexample for C6 as stated: when both distro queries exit
non-zero, `get_distro_version` returns the capitalized literal
`Unknown` (tools.py:244), which differs from the lowercase `unknown`
sentinel the claim names. -/
theorem distro_version_sentinel_counterexample :
    (waagentGetDistroVersion
      ⟨fun _ => ⟨1, [], []⟩, fun _ _ => ⟨1, [], strOf "boom"⟩,
        fun _ => (true, false), OsKind.otherLinux⟩
      ⟨some (strOf "python3"), some false, none, none⟩).1 ≠
      strOf "unknown" ∧
    (waagentGetDistroVersion
      ⟨fun _ => ⟨1, [], []⟩, fun _ _ => ⟨1, [], strOf "boom"⟩,
        fun _ => (true, false), OsKind.otherLinux⟩
      ⟨some (strOf "python3"), some false, none, none⟩).1 =
      strOf "Unknown" := by
  constructor <;> decide

/-- C6 (amended): `Waagent.get_distro_version` degrades gracefully and
never fails the resolution: with the interpreter already detected, it
first tries the modern query; when that exits non-zero it tries the
legacy-compatible query (whose stdout it strips and lowercases); when
both exit non-zero it returns the literal `Unknown` sentinel string
rather than raising an error. -/
theorem distro_version_graceful_degradation (env : Env) (st : WaagentState)
    (pc : Str) (us : Bool) (hdv : st.distroVersion = none)
    (hpc : st.pythonCmd = some pc) (hus : st.pythonUseSudo = some us) :
    ((env.exec (modernDistroCmd pc) us).exitCode = 0 →
      (waagentGetDistroVersion env st).1 =
        (env.exec (modernDistroCmd pc) us).stdout) ∧
    ((env.exec (modernDistroCmd pc) us).exitCode ≠ 0 →
      (env.exec (legacyDistroCmd pc) us).exitCode = 0 →
      (waagentGetDistroVersion env st).1 =
        lowerStr (stripBoth ' '
          (stripBoth dqCh (env.exec (legacyDistroCmd pc) us).stdout))) ∧
    ((env.exec (modernDistroCmd pc) us).exitCode ≠ 0 →
      (env.exec (legacyDistroCmd pc) us).exitCode ≠ 0 →
      (waagentGetDistroVersion env st).1 = strOf "Unknown") := by
  obtain ⟨pc0, ps0, dv0, wc0⟩ := st
  simp only at hdv hpc hus
  subst hdv hpc hus
  refine ⟨?_, ?_, ?_⟩
  · intro h1
    simp [waagentGetDistroVersion, waagentGetPythonCmd, h1]
  · intro h1 h2
    simp [waagentGetDistroVersion, waagentGetPythonCmd, h1, h2]
  · intro h1 h2
    simp [waagentGetDistroVersion, waagentGetPythonCmd, h1, h2]

/-- Witness for the amended C6 at a concrete environment where both
queries fail: the result is the `Unknown` sentinel. -/
theorem distro_version_graceful_degradation_witness :
    (waagentGetDistroVersion
      ⟨fun _ => ⟨0, [], []⟩, fun _ _ => ⟨127, [], strOf "not found"⟩,
        fun _ => (true, false), OsKind.otherLinux⟩
      ⟨some (strOf "python3"), some false, none, none⟩).1 =
      strOf "Unknown" :=
  (distro_version_graceful_degradation
    ⟨fun _ => ⟨0, [], []⟩, fun _ _ => ⟨127, [], strOf "not found"⟩,
      fun _ => (true, false), OsKind.otherLinux⟩
    ⟨some (strOf "python3"), some false, none, none⟩
    (strOf "python3") false rfl rfl rfl).2.2 (by decide) (by decide)

/-- C7: when every candidate of the `get_version` probe chain fails,
the final result is the last candidate's: it carries the third
candidate's exit code and stderr, its exit code is non-zero (a failure,
not a partial success), and the remembered command is the last
candidate. -/
theorem all_candidates_fail_last_result (run : Str → ExecResult)
    (cmd0 : Str) (h1 : (run cmd0).exitCode ≠ 0)
    (h2 : (run sbinWaagentCmd).exitCode ≠ 0)
    (h3 : (run py3WaagentCmd).exitCode ≠ 0) :
    (waagentGetVersion cmd0 run).1.result = run py3WaagentCmd ∧
    (waagentGetVersion cmd0 run).1.result.exitCode =
      (run py3WaagentCmd).exitCode ∧
    (waagentGetVersion cmd0 run).1.result.stderr =
      (run py3WaagentCmd).stderr ∧
    (waagentGetVersion cmd0 run).1.result.exitCode ≠ 0 ∧
    (waagentGetVersion cmd0 run).1.command = py3WaagentCmd := by
  unfold waagentGetVersion
  rw [if_pos h1, if_pos h2]
  exact ⟨rfl, rfl, rfl, h3, rfl⟩

/-- Witness for C7 at a concrete oracle where every candidate exits 2:
the final result is the third candidate's. -/
theorem all_candidates_fail_last_result_witness :
    (waagentGetVersion (strOf "waagent")
      (fun cmd => ⟨2, [], strOf "err: " ++ cmd⟩)).1.result =
      ⟨2, [], strOf "err: " ++ py3WaagentCmd⟩ ∧
    (waagentGetVersion (strOf "waagent")
      (fun cmd => ⟨2, [], strOf "err: " ++ cmd⟩)).1.command = py3WaagentCmd :=
  ⟨(all_candidates_fail_last_result (fun cmd => ⟨2, [], strOf "err: " ++ cmd⟩)
      (strOf "waagent") (by decide) (by decide) (by decide)).1,
    (all_candidates_fail_last_result (fun cmd => ⟨2, [], strOf "err: " ++ cmd⟩)
      (strOf "waagent") (by decide) (by decide) (by decide)).2.2.2.2⟩

/-- C4: the legacy-driver version gate fails before any install
attempt.  For every OS profile whose version is at or above the `7.8.0`
ceiling, the install flow yields the unsupported-distro error and
executes no install command, and `LisDriver.can_install` returns `True`
exactly when the OS is Redhat with version strictly below `7.8.0`. -/
theorem lis_version_gate :
    (∀ (os : OsInfo) (doInstall : Unit → Bool × List Str),
      versionLt os.version lisCeiling = false →
      lisInstallGate os doInstall = (Except.error lisUnsupportedMsg, [])) ∧
    (∀ os : OsInfo, lisCanInstall os = Except.ok true ↔
      (os.isRedhat = true ∧ versionLt os.version lisCeiling = true)) := by
  constructor
  · intro os di h
    unfold lisInstallGate lisCanInstall
    rw [h]
    simp
  · intro os
    unfold lisCanInstall
    by_cases h : (os.isRedhat && versionLt os.version lisCeiling) = true
    · rw [if_pos h]
      simp [Bool.and_eq_true] at h
      simp [h]
    · rw [if_neg h]
      simp [Bool.and_eq_true] at h
      constructor
      · intro hcontra
        exact absurd hcontra (by simp)
      · intro hcontra
        exact absurd (h hcontra.1) (by simp [hcontra.2])

/-- Witness for C4: a Redhat profile exactly at the 7.8.0 ceiling is
refused with no install command executed, and a Redhat profile at 7.7.9
is allowed. -/
theorem lis_version_gate_witness :
    lisInstallGate ⟨true, ⟨7, 8, 0⟩⟩
      (fun _ => (true, [strOf "./install.sh"])) =
      (Except.error lisUnsupportedMsg, []) ∧
    (lisCanInstall ⟨true, ⟨7, 7, 9⟩⟩ = Except.ok true ↔
      (true = true ∧ versionLt ⟨7, 7, 9⟩ lisCeiling = true)) :=
  ⟨lis_version_gate.1 ⟨true, ⟨7, 8, 0⟩⟩ _ (by decide),
    lis_version_gate.2 ⟨true, ⟨7, 7, 9⟩⟩⟩

/-- C5: `KvpClient._install` selects download-by-architecture exactly
when the architecture is a key of the static binary table (`x86_64` or
`i686`), otherwise falls through to build-from-source with the fixed
`-std=c99` flag, and in every case returns the re-run existence check's
result, so a strategy whose post-check fails reports installation
failure. -/
theorem kvp_install_strategy :
    (∀ (arch : Str) (checkAfter : KvpInstallAction → Bool),
      (kvpInstall arch checkAfter).2 = checkAfter (kvpInstallAction arch) ∧
      (kvpInstall arch checkAfter).1 = kvpInstallAction arch) ∧
    (∀ arch : Str,
      (∃ url, kvpInstallAction arch = KvpInstallAction.download url) ↔
      (arch = strOf "x86_64" ∨ arch = strOf "i686")) ∧
    (∀ arch : Str, arch ≠ strOf "x86_64" → arch ≠ strOf "i686" →
      kvpInstallAction arch =
        KvpInstallAction.buildFromSource (strOf "-std=c99")) := by
  have hbuild : ∀ arch : Str, arch ≠ strOf "x86_64" → arch ≠ strOf "i686" →
      kvpInstallAction arch =
        KvpInstallAction.buildFromSource (strOf "-std=c99") := by
    intro arch hna hnb
    unfold kvpInstallAction kvpBinaries
    have h1 : (strOf "x86_64" = arch) = False := eq_false (fun he => hna he.symm)
    have h2 : (strOf "i686" = arch) = False := eq_false (fun he => hnb he.symm)
    simp only [dictGet, h1, h2, if_false]
    simp
  refine ⟨fun arch ch => ⟨rfl, rfl⟩, ?_, hbuild⟩
  intro arch
  by_cases ha : arch = strOf "x86_64"
  · subst ha
    constructor
    · intro _
      exact Or.inl rfl
    · intro _
      exact ⟨strOf "https://raw.githubusercontent.com/microsoft/lis-test/master/WS2012R2/lisa/tools/KVP/kvp_client64",
        by decide⟩
  · by_cases hb : arch = strOf "i686"
    · subst hb
      constructor
      · intro _
        exact Or.inr rfl
      · intro _
        exact ⟨strOf "https://raw.githubusercontent.com/microsoft/lis-test/master/WS2012R2/lisa/tools/KVP/kvp_client32",
          by decide⟩
    · rw [hbuild arch ha hb]
      constructor
      · rintro ⟨url, hurl⟩
        exact absurd hurl (by simp)
      · intro hc
        rcases hc with rfl | rfl
        · exact absurd rfl ha
        · exact absurd rfl hb

/-- Witness for C5: architecture `aarch64` is not in the table, so the
build-from-source strategy with `-std=c99` is selected; with a failing
post-check the install reports failure. -/
theorem kvp_install_strategy_witness :
    kvpInstallAction (strOf "aarch64") =
      KvpInstallAction.buildFromSource (strOf "-std=c99") ∧
    (kvpInstall (strOf "aarch64") (fun _ => false)).2 = false ∧
    (kvpInstallAction (strOf "x86_64") =
      KvpInstallAction.download (strOf
        "https://raw.githubusercontent.com/microsoft/lis-test/master/WS2012R2/lisa/tools/KVP/kvp_client64")) :=
  ⟨(kvp_install_strategy.2.2 (strOf "aarch64") (by decide) (by decide)),
    by
      rw [(kvp_install_strategy.1 (strOf "aarch64") (fun _ => false)).1],
    by decide⟩
